import Mathlib

/-!
Verification development for the church-manager attendance/placement app.

The TypeScript sources are shallowly embedded as pure Lean functions:
string-processing helpers (`getPlacedGroup`, `parseDetail`) are modelled over
`List Char` with the exact left-to-right first-match semantics of the
JavaScript regular expressions they implement, the React event handlers
(`handleAddEntry`, `handleConfirmPlacement`, `handleSyncFromSheet`, ...)
become state transformers over an explicit `AppState`, and each network call
is parameterised by its outcome.  The aggregation/categorisation step, which
the app delegates to a hosted text-understanding service, is modelled from
the specification (section 4.1) as a pure function.
-/

/-- JS `\s` whitespace class restricted to the ASCII range (the characters
that can actually occur in the strings this app builds). -/
def isJsSpace (c : Char) : Bool :=
  c == ' ' || c == '\t' || c == '\n' || c == '\r' || c == '\x0b' || c == '\x0c'

/-- JS `String.prototype.trim`, modelled over the character list. -/
def jsTrim (s : String) : String :=
  ⟨((s.data.dropWhile isJsSpace).reverse.dropWhile isJsSpace).reverse⟩

/-- Semantics of the regex fragment `\s*([^X]+)` applied to the maximal
chunk of characters that excludes the terminator `X`: greedy `\s*` skips
leading whitespace, the capture takes the rest; if the chunk is nonempty but
all whitespace, backtracking leaves exactly its last character in the
capture; an empty chunk means no match at this position. -/
def captureAfterSpaces : List Char → Option (List Char)
  | [] => none
  | c :: cs =>
      if (c :: cs).dropWhile isJsSpace = [] then some [((c :: cs).getLast?).getD c]
      else some ((c :: cs).dropWhile isJsSpace)

/-- Split a character list at its first `']'`: returns the chunk before it
and the remainder after it, or `none` when no `']'` exists (in which case
the regex `\[배치완료:\s*([^\]]+)\]` cannot match at this position). -/
def splitAtClose : List Char → Option (List Char × List Char)
  | [] => none
  | c :: cs =>
      if c = ']' then some ([], cs)
      else
        match splitAtClose cs with
        | some (a, b) => some (c :: a, b)
        | none => none

/-- The literal characters of the tag opener `[배치완료:`. -/
def tagMark : List Char := ['[', '배', '치', '완', '료', ':']

/-- One attempted match of `\[배치완료:\s*([^\]]+)\]` anchored at the head
of the list, returning the capture group. -/
def tryTagAt (l : List Char) : Option (List Char) :=
  if tagMark.isPrefixOf l then
    match splitAtClose (l.drop tagMark.length) with
    | some (chunk, _) => captureAfterSpaces chunk
    | none => none
  else none

/-- Left-to-right scan for the first match of `\[배치완료:\s*([^\]]+)\]`,
exactly as the (non-global) JS regex engine advances the match start one
character at a time. -/
def scanTag : List Char → Option (List Char)
  | [] => none
  | c :: cs =>
      match tryTagAt (c :: cs) with
      | some t => some t
      | none => scanTag cs

/-- `getPlacedGroup` from src/index.tsx lines 168-171 (same regex in
src/App.tsx lines 15-19): the capture group of the first match of
`\[배치완료:\s*([^\]]+)\]` in the member's details text, or null. -/
def getPlacedGroup (details : String) : Option String :=
  (scanTag details.data).map (fun t => (⟨t⟩ : String))

/-- One attempted match of `label:\s*([^,]+)(?:,|$)` anchored at the head of
the list: the chunk runs to the first comma or the end of the string. -/
def tryFieldAt (label : List Char) (l : List Char) : Option (List Char) :=
  if (label ++ [':']).isPrefixOf l then
    captureAfterSpaces ((l.drop (label.length + 1)).takeWhile (fun x => x ≠ ','))
  else none

/-- Left-to-right scan for the first match of `label:\s*([^,]+)(?:,|$)`. -/
def scanField (label : List Char) : List Char → Option (List Char)
  | [] => none
  | c :: cs =>
      match tryFieldAt label (c :: cs) with
      | some t => some t
      | none => scanField label cs

/-- `parseDetail` from src/index.tsx lines 162-166: first match of the regex
`label:\s*([^,]+)(?:,|$)` in the details text, trimmed, else the empty
string. -/
def parseDetail (details label : String) : String :=
  match scanField label.data details.data with
  | some t => jsTrim ⟨t⟩
  | none => ""

/-- The four person categories of the specification: the `status` field of
the code collapses PLACED into TARGET, but the four buckets
(`placementTargets`, `placedMembers`, `ongoingMembers`, `completedMembers`)
are exactly these categories. -/
inductive Category
  | TARGET
  | PLACED
  | ONGOING
  | COMPLETED
deriving DecidableEq, Repr

/-- Modelled from the spec: the categorisation rule is executed by the
hosted text-understanding service, so it exists in src/ only as the prompt
of `analyzeSheetData` (src/services/geminiService.ts lines 22-31, identical
in src/unnamed/part_000 lines 22-26), whose strict priority order the spec
section 4.1 restates verbatim: 4+ rounds and no tag → TARGET; 4+ rounds and
tag → PLACED; 8+ rounds → COMPLETED (only reachable when neither earlier
rule fired); otherwise → ONGOING. -/
def categorize (attendanceCount : Nat) (hasPlacementTag : Bool) : Category :=
  if 4 ≤ attendanceCount ∧ hasPlacementTag = false then Category.TARGET
  else if 4 ≤ attendanceCount ∧ hasPlacementTag = true then Category.PLACED
  else if 8 ≤ attendanceCount then Category.COMPLETED
  else Category.ONGOING

/-- The notes text built by the placement confirmation handlers: the tag for
the new group is prepended in front of the previous notes text
(src/index.tsx line 388, src/App.tsx line 405, src/unnamed/part_001 lines
499-500). -/
def mkPlacementNotes (groupName oldNotes : String) : String :=
  "[배치완료: " ++ groupName ++ "] " ++ oldNotes

/-- The notes text after a chronological sequence of placements `gs` (oldest
first) has been applied on top of `base`: each placement prepends its tag. -/
def notesAfterPlacements (base : String) (gs : List String) : String :=
  gs.foldl (fun acc g => mkPlacementNotes g acc) base

/-- The `status` labels the extractor attaches to members
(src/index.tsx line 19): `'TARGET' | 'ONGOING' | 'COMPLETED'`. -/
inductive MemberStatus
  | TARGET
  | ONGOING
  | COMPLETED
deriving DecidableEq, Repr

/-- `Member` from src/index.tsx lines 12-22. -/
structure Member where
  name : String
  spouseName : Option String
  attendanceCount : Nat
  attendedRounds : List Nat
  region : String
  details : String
  status : MemberStatus
  lastAuthor : Option String
deriving DecidableEq, Repr

/-- `AnalysisResult` from src/index.tsx lines 24-30. -/
structure AnalysisResult where
  placementTargets : List Member
  placedMembers : List Member
  ongoingMembers : List Member
  completedMembers : List Member
  totalAttendanceRecords : Nat
deriving DecidableEq, Repr

/-- `FormEntry` from src/index.tsx lines 42-53. -/
structure FormEntry where
  author : String
  name : String
  spouseName : String
  date : String
  classType : String
  round : String
  residence : String
  preference : String
  notes : String
  timestamp : Option String
deriving DecidableEq, Repr

/-- The `syncStatus` React state of src/index.tsx line 296. -/
inductive SyncStatus
  | idle
  | success
  | error
deriving DecidableEq, Repr

/-- The React state of the `App` component in src/index.tsx that the
embedded handlers read or write.  `syncsInFlight` is a ghost counter, not a
React state variable: it counts invocations of `handleSyncFromSheet` that
have entered the function body but not yet reached the `finally` block, so
that concurrency of resync cycles is observable in the embedding.
`lastAuthor` mirrors the `last_author` localStorage key. -/
structure AppState where
  result : Option AnalysisResult
  syncStatus : SyncStatus
  lastSyncTime : String
  isAnalyzing : Bool
  isSyncing : Bool
  syncsInFlight : Nat
  recentLogs : List FormEntry
  currentEntry : FormEntry
  editForm : FormEntry
  editingMember : Option Member
  placingMember : Option Member
  smallGroupName : String
  isSaving : Bool
  lastAuthor : String
deriving DecidableEq, Repr

/-- Outcome of the awaited `fetchSheetData` + `analyzeSheetData` sequence
inside one resync cycle: either a full `AnalysisResult` (with the formatted
completion time) or a thrown error (fetch failure, extraction failure, or
schema-validation failure — all reach the same `catch`). -/
inductive SyncOutcome
  | success (data : AnalysisResult) (now : String)
  | failure
deriving DecidableEq, Repr

/-- Outcome of the awaited `appendEntriesToSheet` call: resolved, or threw
(configuration error, transport error, or timeout — all reach the same
`catch` in `handleAddEntry`). -/
inductive AppendOutcome
  | success
  | failure
deriving DecidableEq, Repr

/-- Entry of `handleSyncFromSheet` (src/index.tsx lines 328-330): the body
is entered unconditionally — there is no guard on `isSyncing` — so the ghost
in-flight counter increases on every trigger; a non-silent trigger also
raises the `isAnalyzing` overlay flag. -/
def syncBegin (s : AppState) (silent : Bool) : AppState :=
  { s with
      isAnalyzing := if silent then s.isAnalyzing else true
      isSyncing := true
      syncsInFlight := s.syncsInFlight + 1 }

/-- Completion of one `handleSyncFromSheet` cycle (src/index.tsx lines
331-345): on success the whole `result` is replaced and the sync time
recorded; on failure only `syncStatus` is set to `error`; the `finally`
block clears the two busy flags either way. -/
def syncEnd (s : AppState) (outcome : SyncOutcome) : AppState :=
  match outcome with
  | SyncOutcome.success data now =>
      { s with
          result := some data
          lastSyncTime := now
          syncStatus := SyncStatus.success
          isAnalyzing := false
          isSyncing := false
          syncsInFlight := s.syncsInFlight - 1 }
  | SyncOutcome.failure =>
      { s with
          syncStatus := SyncStatus.error
          isAnalyzing := false
          isSyncing := false
          syncsInFlight := s.syncsInFlight - 1 }

/-- The draft reset of src/index.tsx line 365: name, spouse, residence,
preference and notes are cleared; author, date, class and round are kept. -/
def clearDraftFields (e : FormEntry) : FormEntry :=
  { e with name := "", spouseName := "", residence := "", preference := "", notes := "" }

/-- `handleAddEntry` from src/index.tsx lines 348-375.  `entry` is the
submitted record and `isCurrentEntry` models the JS reference-identity test
`entry === currentEntry` of line 364, which is true exactly when the
handler was invoked with its default argument (the placement and edit call
sites pass freshly constructed object literals, which are never
reference-equal to `currentEntry`).  `now` is the formatted submission
time.  The second component of the result is the payload handed to the
append client `appendEntriesToSheet`, or `none` when a validation alert
blocked the submission; the client is invoked (line 361) before its outcome
is known, so the payload is present for both outcomes.  The scheduled
delayed resync of line 369 is outside this state transformer. -/
def handleAddEntry (s : AppState) (entry : FormEntry) (isCurrentEntry : Bool)
    (now : String) (outcome : AppendOutcome) : AppState × Option (List FormEntry) :=
  if jsTrim entry.name = "" then (s, none)
  else if jsTrim entry.author = "" then (s, none)
  else if s.isSaving then (s, none)
  else
    let s1 := { s with editingMember := none, placingMember := none, lastAuthor := entry.author }
    let withTime := { entry with timestamp := some now }
    match outcome with
    | AppendOutcome.success =>
        let s2 := { s1 with recentLogs := withTime :: s1.recentLogs.take 9 }
        let s3 := if isCurrentEntry then { s2 with currentEntry := clearDraftFields s2.currentEntry } else s2
        ({ s3 with smallGroupName := "", isSaving := false }, some [withTime])
    | AppendOutcome.failure =>
        ({ s1 with isSaving := false }, some [withTime])

/-- The placement record built by `handleConfirmPlacement`
(src/index.tsx lines 379-389): `author` is `currentEntry.author || '시스템'`
(the empty string is the only falsy string), the round is the
administrative `'0'`, and the notes prepend the tag for the chosen group to
the member's derived 가족/기타 notes. -/
def placementEntry (author : String) (m : Member) (groupName today : String) : FormEntry :=
  { author := if author = "" then "시스템" else author
    name := m.name
    spouseName := m.spouseName.getD ""
    date := today
    classType := "순배치"
    round := "0"
    residence := m.region
    preference := parseDetail m.details "선호"
    notes := mkPlacementNotes groupName (parseDetail m.details "가족/기타")
    timestamp := none }

/-- `handleConfirmPlacement` from src/index.tsx lines 377-391: with no
pending member or a blank group name the handler alerts and returns (no
record constructed, nothing handed to the append client); otherwise it
submits the freshly built placement entry through `handleAddEntry`. -/
def handleConfirmPlacement (s : AppState) (today now : String)
    (outcome : AppendOutcome) : AppState × Option (List FormEntry) :=
  match s.placingMember with
  | none => (s, none)
  | some m =>
      if jsTrim s.smallGroupName = "" then (s, none)
      else handleAddEntry s (placementEntry s.currentEntry.author m s.smallGroupName today)
             false now outcome

/-- The save button of the edit modal (src/index.tsx line 574): only
rendered while `editingMember` is set; submits a fresh object spread from
`editForm` with the administrative round `'0'` through `handleAddEntry`. -/
def handleEditSave (s : AppState) (today now : String)
    (outcome : AppendOutcome) : AppState × Option (List FormEntry) :=
  match s.editingMember with
  | none => (s, none)
  | some _ =>
      handleAddEntry s
        { s.editForm with
            author := if s.currentEntry.author = "" then "비서" else s.currentEntry.author
            classType := "정보수정"
            round := "0"
            date := today }
        false now outcome

/-- The render condition of the 순 배치하기 button in `MemberCard`
(src/index.tsx lines 201-206 and 268-272): the button — the only call site
of `onOpenPlacement`, which is `setPlacingMember` — exists only for members
with no placement tag in their details and at least 4 attended rounds. -/
def shouldShowPlacementButton (m : Member) : Bool :=
  !(getPlacedGroup m.details).isSome && decide (4 ≤ m.attendanceCount)

/-- Opening the placement modal from a member card: `placingMember` can only
be set through the gated button, so for members failing the gate the state
is unchanged. -/
def openPlacementFromCard (s : AppState) (m : Member) : AppState :=
  if shouldShowPlacementButton m then { s with placingMember := some m } else s

/-- A thrown JS error as observed by a `catch (error)` clause: its `name`
(`"AbortError"` for the `AbortController` firing) and its `message`. -/
structure JsError where
  name : String
  message : String
deriving DecidableEq, Repr

/-- The error taxonomy of the append clients: a configuration error (bad or
missing endpoint URL, raised before any network activity), a timeout error,
or a generic transport error. -/
inductive AppendError
  | config (msg : String)
  | timeout (msg : String)
  | transport (msg : String)
deriving DecidableEq, Repr

/-- `url.startsWith('http')`, modelled over the character list. -/
def startsWithHttp (url : String) : Bool :=
  "http".data.isPrefixOf url.data

/-- The `setTimeout(() => controller.abort(), 15000)` deadline of
`appendEntriesToSheet` in src/services/sheetService.ts line 32. -/
def appendTimeoutMillis_svc : Nat := 15000

/-- The `setTimeout(() => controller.abort(), 15000)` deadline of
`appendEntriesToSheet` in src/index.tsx line 119. -/
def appendTimeoutMillis_idx : Nat := 15000

/-- `sendToAppsScript` in src/unnamed/part_001 lines 132-140 creates no
`AbortController` and arms no deadline: this append client has no timeout. -/
def sendToAppsScriptTimeoutMillis : Option Nat := none

/-- `appendEntriesToSheet` from src/services/sheetService.ts lines 26-55,
as a function of the fetch outcome (`none` = resolved, `some e` = threw
`e`): the URL guard raises a configuration error; an `AbortError` (the
15-second deadline firing) is mapped to a dedicated timeout message; every
other thrown error is wrapped in the generic transport message. -/
def appendEntriesToSheet_svc (scriptUrl : String) (outcome : Option JsError) :
    Except AppendError Unit :=
  if scriptUrl = "" ∨ startsWithHttp scriptUrl = false then
    Except.error (AppendError.config
      "유효한 Apps Script URL이 설정되지 않았습니다. 관리자 설정에서 URL을 입력해주세요.")
  else
    match outcome with
    | none => Except.ok ()
    | some e =>
        if e.name = "AbortError" then
          Except.error (AppendError.timeout
            "전송 시간이 초과되었습니다. 네트워크 상태나 Apps Script URL을 확인해주세요.")
        else
          Except.error (AppendError.transport
            ("시트 업데이트 중 오류가 발생했습니다: " ++ e.message))

/-- `appendEntriesToSheet` from src/index.tsx lines 116-134: the catch
clause has no `AbortError` branch, so every thrown error — the 15-second
deadline's abort included — is wrapped in the same message. -/
def appendEntriesToSheet_idx (scriptUrl : String) (outcome : Option JsError) :
    Except String Unit :=
  if scriptUrl = "" then Except.error "Apps Script URL이 설정되지 않았습니다."
  else
    match outcome with
    | none => Except.ok ()
    | some e => Except.error ("저장 중 오류 발생: " ++ e.message)

/-- Modelled from the spec: `AttendanceRecord` of section 3 — one immutable
row of the append-only attendance log (the app itself never materialises
this type; rows live in the external sheet and are consumed by the external
extractor). -/
structure RawRecord where
  personName : String
  spouseName : Option String
  sessionDate : String
  sessionRound : Nat
  residence : String
  preference : String
  notes : String
  author : String
  timestamp : String
deriving DecidableEq, Repr

/-- Modelled from the spec: `PersonAggregate` of section 3. -/
structure PersonAggregate where
  personName : String
  attendedRounds : List Nat
  attendanceCount : Nat
  region : String
  spouseName : Option String
  placementTag : Option String
  notes : String
  category : Category
deriving DecidableEq, Repr

/-- Case-folding over the character list (ASCII lower-casing). -/
def toLowerStr (s : String) : String :=
  ⟨s.data.map Char.toLower⟩

/-- Modelled from the spec: canonical person identity (section 3) — the
personName normalised by trimming and case-folding. -/
def normalizeName (n : String) : String :=
  toLowerStr (jsTrim n)

/-- Records that survive the blank-name drop of section 4.1. -/
def namedRecords (rs : List RawRecord) : List RawRecord :=
  rs.filter (fun r => jsTrim r.personName ≠ "")

/-- The distinct normalised person keys occurring in the record list. -/
def aggregateKeys (rs : List RawRecord) : List String :=
  ((namedRecords rs).map (fun r => normalizeName r.personName)).dedup

/-- The group of records belonging to one normalised person key. -/
def groupOf (rs : List RawRecord) (key : String) : List RawRecord :=
  (namedRecords rs).filter (fun r => normalizeName r.personName = key)

/-- Modelled from the spec: attendedRounds (section 4.1 step 2) — the set of
session rounds of the group restricted to 1..8, represented as the sorted
duplicate-free list; administrative rows (round 0) and out-of-range rounds
contribute nothing. -/
def attendedRoundsOf (group : List RawRecord) : List Nat :=
  (List.range 9).filter (fun k => 1 ≤ k ∧ group.any (fun r => r.sessionRound = k))

/-- Modelled from the spec: placementTag (section 4.1 step 3) — scan the
notes of every record of the group with the tag regex and keep the match of
the most recently appended record; within one notes text the first
occurrence wins, which is the most recently appended one because
`mkPlacementNotes` prepends. -/
def placementTagOf (group : List RawRecord) : Option String :=
  (group.filterMap (fun r => getPlacedGroup r.notes)).getLast?

/-- Modelled from the spec: region derived from the residence fields of the
person's records — the most recently appended non-blank residence. -/
def regionOf (group : List RawRecord) : String :=
  (((group.map (fun r => r.residence)).filter (fun x => jsTrim x ≠ "")).getLast?).getD ""

/-- Modelled from the spec: the person's own recorded spouse name — the most
recently appended non-blank one, before couple resolution. -/
def spouseOf (group : List RawRecord) : Option String :=
  ((group.filterMap (fun r => r.spouseName)).filter (fun x => jsTrim x ≠ "")).getLast?

/-- Modelled from the spec: the derived display notes — the non-empty notes
fragments of the group in append order (administrative rows included). -/
def notesOf (group : List RawRecord) : String :=
  String.intercalate " " ((group.map (fun r => r.notes)).filter (fun x => x ≠ ""))

/-- Modelled from the spec: steps 1-4 of the aggregation algorithm (section
4.1) for a single person key, before couple resolution. -/
def basePerson (rs : List RawRecord) (key : String) : PersonAggregate :=
  let g := groupOf rs key
  let rounds := attendedRoundsOf g
  let tag := placementTagOf g
  { personName := key
    attendedRounds := rounds
    attendanceCount := rounds.length
    region := regionOf g
    spouseName := spouseOf g
    placementTag := tag
    notes := notesOf g
    category := categorize rounds.length tag.isSome }

/-- Modelled from the spec: the couple resolution pass (section 4.1 step 5)
— for a person with a resolved partner that also has an aggregate, the
region is back-filled from the partner when the person's own is blank, and
a missing spouseName is filled in from a partner whose records name this
person; notes are never merged. -/
def couplePass (base : List (String × PersonAggregate)) : List (String × PersonAggregate) :=
  base.map (fun kp =>
    match kp.2.spouseName with
    | some y =>
        match base.find? (fun q => q.1 == normalizeName y) with
        | some q =>
            (kp.1, { kp.2 with region := if kp.2.region = "" then q.2.region else kp.2.region })
        | none => (kp.1, kp.2)
    | none =>
        match base.find? (fun q =>
            (q.2.spouseName.map normalizeName) == some kp.1 && q.1 != kp.1) with
        | some q =>
            (kp.1, { kp.2 with
                       spouseName := some q.2.personName
                       region := if kp.2.region = "" then q.2.region else kp.2.region })
        | none => (kp.1, kp.2))

/-- Modelled from the spec: `aggregate` (section 4.1) — the app delegates
this step to the hosted text-understanding service (`analyzeSheetData`), so
only its prompt exists under src/; this is the deterministic rule-based
algorithm the spec prescribes, as a pure function from the full record list
to the keyed person aggregates. -/
def aggregate (rs : List RawRecord) : List (String × PersonAggregate) :=
  couplePass ((aggregateKeys rs).map (fun k => (k, basePerson rs k)))

/-- A small concrete record set used to exercise `aggregate`. -/
def sampleRecords : List RawRecord :=
  [ { personName := "Kim", spouseName := none, sessionDate := "2026-01-05", sessionRound := 1,
      residence := "정자동", preference := "", notes := "", author := "A", timestamp := "t1" },
    { personName := " kim", spouseName := some "Lee", sessionDate := "2026-01-12", sessionRound := 2,
      residence := "", preference := "", notes := "", author := "A", timestamp := "t2" },
    { personName := "Lee", spouseName := none, sessionDate := "2026-01-12", sessionRound := 2,
      residence := "", preference := "", notes := "메모", author := "B", timestamp := "t3" } ]

/-- The blank entry form of src/index.tsx line 303 (at a fixed date). -/
def emptyEntry : FormEntry :=
  { author := "", name := "", spouseName := "", date := "2026-10-12", classType := "2부 A반",
    round := "1", residence := "", preference := "", notes := "", timestamp := none }

/-- The initial React state of the `App` component of src/index.tsx (with
the localStorage-backed initialisers at their defaults). -/
def baseState : AppState :=
  { result := none, syncStatus := SyncStatus.idle, lastSyncTime := "-", isAnalyzing := false,
    isSyncing := false, syncsInFlight := 0, recentLogs := [], currentEntry := emptyEntry,
    editForm := emptyEntry, editingMember := none, placingMember := none,
    smallGroupName := "", isSaving := false, lastAuthor := "" }

/-- A member with fewer than 4 attended rounds and no placement tag. -/
def c2Member : Member :=
  { name := "박민수", spouseName := none, attendanceCount := 3, attendedRounds := [1, 2, 3],
    region := "수내동", details := "선호: 자매순-주말", status := MemberStatus.ONGOING,
    lastAuthor := none }

/-- A placement-eligible member used by the placement-record theorems. -/
def c5Member : Member :=
  { name := "김철수", spouseName := none, attendanceCount := 5, attendedRounds := [1, 2, 3, 4, 5],
    region := "정자동 (알파)", details := "선호: 부부순, 가족/기타: 자녀 2명",
    status := MemberStatus.TARGET, lastAuthor := none }

/-- A state about to confirm a placement for `c5Member` while the operator's
author field is empty. -/
def c5State : AppState :=
  { baseState with placingMember := some c5Member, smallGroupName := "정자 1순" }

/-- The record `handleConfirmPlacement` hands to the append client from
`c5State`: its author is the fallback literal, not the (empty) supplied
author. -/
def c5Expected : FormEntry :=
  { author := "시스템", name := "김철수", spouseName := "", date := "2026-10-12",
    classType := "순배치", round := "0", residence := "정자동 (알파)",
    preference := "부부순", notes := "[배치완료: 정자 1순] 자녀 2명",
    timestamp := some "10:00:00" }

/-- Like `c5State` but with a non-empty author in the entry form. -/
def c5AuthoredState : AppState :=
  { c5State with currentEntry := { emptyEntry with author := "김간사" } }

/-- A valid manual attendance entry used by the buffer theorems. -/
def c9Entry : FormEntry :=
  { author := "간사B", name := "이영희", spouseName := "", date := "2026-10-12",
    classType := "2부 A반", round := "3", residence := "수내동", preference := "",
    notes := "", timestamp := none }

theorem jsTrim_sanity : jsTrim "  a b  " = "a b" := by decide

theorem getPlacedGroup_sanity :
    getPlacedGroup "메모 [배치완료: 정자 1순] 끝" = some "정자 1순" := by decide

theorem parseDetail_sanity :
    parseDetail "선호: 부부순, 가족/기타: 자녀 2명" "선호" = "부부순" := by decide

theorem aggregate_sample_computes :
    (aggregate sampleRecords).map (fun p => (p.1, p.2.attendanceCount, p.2.region)) =
      [("kim", 2, "정자동"), ("lee", 1, "정자동")] := by decide

/-- `categorize` yields TARGET exactly for 4+ rounds without a tag. -/
theorem categorize_eq_TARGET (n : Nat) (b : Bool) :
    categorize n b = Category.TARGET ↔ 4 ≤ n ∧ b = false := by
  unfold categorize
  split_ifs with h1 h2 h3 <;> simp_all

/-- Splitting at the first `']'` of `l ++ ']' :: r` when `l` is clean. -/
theorem splitAtClose_append (l r : List Char) (h : ']' ∉ l) :
    splitAtClose (l ++ ']' :: r) = some (l, r) := by
  induction l with
  | nil => simp [splitAtClose]
  | cons c cs ih =>
      have hc : ¬ c = ']' := fun hc => h (hc ▸ List.mem_cons_self c cs)
      have hcs : ']' ∉ cs := fun hm => h (List.mem_cons_of_mem _ hm)
      rw [List.cons_append]
      unfold splitAtClose
      rw [if_neg hc, ih hcs]

/-- The capture after one leading space is the chunk itself when the chunk
is nonempty and starts with a non-space character. -/
theorem captureAfterSpaces_space_cons (l : List Char) (hne : l ≠ [])
    (hws : l.dropWhile isJsSpace = l) :
    captureAfterSpaces (' ' :: l) = some l := by
  obtain ⟨d, ds, rfl⟩ := List.exists_cons_of_ne_nil hne
  have h1 : (' ' :: d :: ds).dropWhile isJsSpace = d :: ds := by
    rw [List.dropWhile_cons_of_pos (by decide)]
    exact hws
  show (if (' ' :: d :: ds).dropWhile isJsSpace = [] then
          some [((' ' :: d :: ds).getLast?).getD ' ']
        else some ((' ' :: d :: ds).dropWhile isJsSpace)) = some (d :: ds)
  rw [h1]
  simp

/-- The character list of a freshly built placement notes text. -/
theorem data_mkPlacementNotes (g old : String) :
    (mkPlacementNotes g old).data
      = tagMark ++ ' ' :: (g.data ++ ']' :: ' ' :: old.data) := by
  unfold mkPlacementNotes
  rw [String.data_append, String.data_append, String.data_append]
  have h1 : "[배치완료: ".data = tagMark ++ [' '] := by decide
  have h2 : "] ".data = [']', ' '] := by decide
  rw [h1, h2]
  simp [List.append_assoc]

/-- The tag regex matches at the very start of a freshly built placement
notes text and captures exactly the group name, provided the group name is
nonempty, has no leading whitespace and contains no `']'`. -/
theorem tryTagAt_mkPlacementNotes (g old : String) (hne : g.data ≠ [])
    (hws : g.data.dropWhile isJsSpace = g.data) (hbr : ']' ∉ g.data) :
    tryTagAt (mkPlacementNotes g old).data = some g.data := by
  rw [data_mkPlacementNotes]
  unfold tryTagAt
  rw [if_pos (List.isPrefixOf_iff_prefix.mpr (List.prefix_append _ _))]
  rw [List.drop_left]
  have hsplit : splitAtClose ((' ' :: g.data) ++ ']' :: (' ' :: old.data))
      = some (' ' :: g.data, ' ' :: old.data) := by
    refine splitAtClose_append _ _ ?_
    intro hmem
    rcases List.mem_cons.mp hmem with h | h
    · cases h
    · exact hbr h
  rw [show (' ' :: (g.data ++ ']' :: ' ' :: old.data))
        = (' ' :: g.data) ++ ']' :: (' ' :: old.data) from rfl]
  rw [hsplit]
  exact captureAfterSpaces_space_cons _ hne hws

/-- A successful anchored match at the head makes the scan succeed. -/
theorem scanTag_of_tryTagAt (l t : List Char) (hl : l ≠ [])
    (ht : tryTagAt l = some t) : scanTag l = some t := by
  obtain ⟨c, cs, rfl⟩ := List.exists_cons_of_ne_nil hl
  unfold scanTag
  rw [ht]

/-- `getPlacedGroup` of a freshly built placement notes text is the group
name just placed, whatever the previous notes contained. -/
theorem getPlacedGroup_mkPlacementNotes (g old : String) (hne : g.data ≠ [])
    (hws : g.data.dropWhile isJsSpace = g.data) (hbr : ']' ∉ g.data) :
    getPlacedGroup (mkPlacementNotes g old) = some g := by
  unfold getPlacedGroup
  have hl : (mkPlacementNotes g old).data ≠ [] := by
    rw [data_mkPlacementNotes]
    simp [tagMark]
  rw [scanTag_of_tryTagAt _ _ hl (tryTagAt_mkPlacementNotes g old hne hws hbr)]
  cases g
  rfl

/-- Submitting any entry that is not the current form entry (reference
identity false) leaves the draft untouched. -/
theorem handleAddEntry_not_current_preserves_draft (s : AppState) (e : FormEntry)
    (now : String) (o : AppendOutcome) :
    (handleAddEntry s e false now o).1.currentEntry = s.currentEntry := by
  unfold handleAddEntry
  cases o <;> split_ifs <;> first | rfl | exact False.elim (by assumption)

/-- C1: category assignment follows the strict priority order of the
prompt: 4 or more attended rounds with no placement tag is TARGET (also at
8 or more rounds — in particular at 9), 4 or more rounds with a tag is
PLACED, and fewer than 4 rounds without a tag is ONGOING. -/
theorem C1_category_priority_order :
    (∀ n : Nat, 4 ≤ n → categorize n false = Category.TARGET)
    ∧ (∀ n : Nat, 4 ≤ n → categorize n true = Category.PLACED)
    ∧ (∀ n : Nat, n < 4 → categorize n false = Category.ONGOING)
    ∧ categorize 9 false = Category.TARGET := by
  refine ⟨fun n h => ?_, fun n h => ?_, fun n h => ?_, by decide⟩
  · simp [categorize, h]
  · simp [categorize, h]
  · have h4 : ¬ 4 ≤ n := by omega
    have h8 : ¬ 8 ≤ n := by omega
    simp [categorize, h4, h8]

/-- Witness for C1 at the concrete counts of the spec's test vector. -/
theorem C1_category_priority_order_witness :
    categorize 5 false = Category.TARGET
    ∧ categorize 5 true = Category.PLACED
    ∧ categorize 3 false = Category.ONGOING
    ∧ categorize 9 false = Category.TARGET :=
  ⟨C1_category_priority_order.1 5 (by omega),
   C1_category_priority_order.2.1 5 (by omega),
   C1_category_priority_order.2.2.1 3 (by omega),
   C1_category_priority_order.2.2.2⟩

/-- C2: the placement-confirmation path requires the person's category to
be TARGET (4+ attended rounds and no placement tag): for any person
violating this, the gated placement button is not rendered, opening the
placement modal from the card is a no-op, and — with no pending member —
the confirmation handler blocks with its validation alert, constructing no
record and handing nothing to the append client. -/
theorem C2_placement_requires_target (s : AppState) (m : Member) (today now : String)
    (o : AppendOutcome)
    (h : categorize m.attendanceCount (getPlacedGroup m.details).isSome ≠ Category.TARGET) :
    shouldShowPlacementButton m = false
    ∧ openPlacementFromCard s m = s
    ∧ (s.placingMember = none → handleConfirmPlacement s today now o = (s, none)) := by
  simp only [ne_eq, categorize_eq_TARGET] at h
  have hb : shouldShowPlacementButton m = false := by
    unfold shouldShowPlacementButton
    by_cases hp : (getPlacedGroup m.details).isSome = true
    · simp [hp]
    · have hn : ¬ 4 ≤ m.attendanceCount := fun h4 =>
        h ⟨h4, by simpa using hp⟩
      simp [hn]
  refine ⟨hb, ?_, ?_⟩
  · unfold openPlacementFromCard
    rw [hb]
    simp
  · intro hnone
    unfold handleConfirmPlacement
    rw [hnone]

/-- Witness for C2: a member with 3 rounds and no tag, in the initial
state. -/
theorem C2_placement_requires_target_witness :
    shouldShowPlacementButton c2Member = false
    ∧ openPlacementFromCard baseState c2Member = baseState
    ∧ handleConfirmPlacement baseState "2026-10-12" "09:00:00" AppendOutcome.success
        = (baseState, none) :=
  ⟨(C2_placement_requires_target baseState c2Member "2026-10-12" "09:00:00"
      AppendOutcome.success (by decide)).1,
   (C2_placement_requires_target baseState c2Member "2026-10-12" "09:00:00"
      AppendOutcome.success (by decide)).2.1,
   (C2_placement_requires_target baseState c2Member "2026-10-12" "09:00:00"
      AppendOutcome.success (by decide)).2.2 rfl⟩

/-- C3: a resync cycle that ends in ERROR leaves the previously published
aggregate map (`result`) completely unchanged — and ends with the error
status and the busy flags cleared. -/
theorem C3_failed_resync_preserves_view (s : AppState) (silent : Bool) :
    (syncEnd (syncBegin s silent) SyncOutcome.failure).result = s.result
    ∧ (syncEnd (syncBegin s silent) SyncOutcome.failure).syncStatus = SyncStatus.error
    ∧ (syncEnd (syncBegin s silent) SyncOutcome.failure).isSyncing = false := by
  exact ⟨rfl, rfl, rfl⟩

/-- C4: the aggregation step is a pure function of the record list — two
runs on equal record sets yield identical aggregate maps. -/
theorem C4_aggregate_deterministic (r1 r2 : List RawRecord) (h : r1 = r2) :
    aggregate r1 = aggregate r2 := by
  rw [h]

/-- Witness for C4 at a concrete record set. -/
theorem C4_aggregate_deterministic_witness :
    aggregate sampleRecords = aggregate sampleRecords :=
  C4_aggregate_deterministic sampleRecords sampleRecords rfl

/-- C5 counterexample: from a state whose entry form has an empty author,
the placement workflow accepts the confirmation (the record is handed to
the append client) but the constructed record's author is the literal
fallback `시스템`, not the supplied (empty) author. -/
theorem C5_author_fallback_counterexample :
    (handleConfirmPlacement c5State "2026-10-12" "10:00:00" AppendOutcome.success).2
      = some [c5Expected]
    ∧ c5Expected.author = "시스템"
    ∧ c5State.currentEntry.author = "" := by decide

/-- C5 (amended): for every accepted placement confirmation the record
handed to the append client is the placement entry stamped with the
submission time, and that entry has the administrative round `'0'`, notes
equal to the tag `[배치완료: groupName] ` followed by the person's derived
가족/기타 notes, residence equal to the person's region — and author equal
to the supplied author provided the supplied author is non-empty. -/
theorem C5_placement_record_shape (s : AppState) (m : Member) (today now : String)
    (o : AppendOutcome)
    (hmem : s.placingMember = some m)
    (hg : jsTrim s.smallGroupName ≠ "")
    (hname : jsTrim m.name ≠ "")
    (hauthor : jsTrim s.currentEntry.author ≠ "")
    (hne : s.currentEntry.author ≠ "")
    (hsave : s.isSaving = false) :
    (handleConfirmPlacement s today now o).2
      = some [{ placementEntry s.currentEntry.author m s.smallGroupName today with
                  timestamp := some now }]
    ∧ (placementEntry s.currentEntry.author m s.smallGroupName today).author
        = s.currentEntry.author
    ∧ (placementEntry s.currentEntry.author m s.smallGroupName today).round = "0"
    ∧ (placementEntry s.currentEntry.author m s.smallGroupName today).residence = m.region
    ∧ (placementEntry s.currentEntry.author m s.smallGroupName today).notes
        = mkPlacementNotes s.smallGroupName (parseDetail m.details "가족/기타") := by
  have hauthorEntry : (placementEntry s.currentEntry.author m s.smallGroupName today).author
      = s.currentEntry.author := by
    unfold placementEntry
    simp [hne]
  refine ⟨?_, hauthorEntry, rfl, rfl, rfl⟩
  simp only [handleConfirmPlacement, hmem]
  rw [if_neg hg]
  unfold handleAddEntry
  rw [if_neg (by simpa [placementEntry] using hname),
      if_neg (by rw [hauthorEntry]; exact hauthor),
      if_neg (by simp [hsave])]
  cases o <;> rfl

/-- Witness for C5 with a non-empty supplied author. -/
theorem C5_placement_record_shape_witness :
    (handleConfirmPlacement c5AuthoredState "2026-10-12" "10:05:00" AppendOutcome.success).2
      = some [{ placementEntry c5AuthoredState.currentEntry.author c5Member
                  c5AuthoredState.smallGroupName "2026-10-12" with timestamp := some "10:05:00" }]
    ∧ (placementEntry c5AuthoredState.currentEntry.author c5Member
        c5AuthoredState.smallGroupName "2026-10-12").author
        = c5AuthoredState.currentEntry.author
    ∧ (placementEntry c5AuthoredState.currentEntry.author c5Member
        c5AuthoredState.smallGroupName "2026-10-12").round = "0"
    ∧ (placementEntry c5AuthoredState.currentEntry.author c5Member
        c5AuthoredState.smallGroupName "2026-10-12").residence = c5Member.region
    ∧ (placementEntry c5AuthoredState.currentEntry.author c5Member
        c5AuthoredState.smallGroupName "2026-10-12").notes
        = mkPlacementNotes c5AuthoredState.smallGroupName
            (parseDetail c5Member.details "가족/기타") :=
  C5_placement_record_shape c5AuthoredState c5Member "2026-10-12" "10:05:00"
    AppendOutcome.success (by decide) (by decide) (by decide) (by decide) (by decide) (by decide)

/-- C6: when notes carry several `[배치완료: ...]` tags, the derived
placement tag is the group of the most recently appended placement: each
placement prepends its tag, and the scan takes the first match, so after
any chronological placement history ending in group `g` the derived tag is
`g` — whatever tags the earlier history left in the text. -/
theorem C6_placement_tag_most_recent (base : String) (gs : List String) (g : String)
    (hne : g.data ≠ []) (hws : g.data.dropWhile isJsSpace = g.data) (hbr : ']' ∉ g.data) :
    getPlacedGroup (notesAfterPlacements base (gs ++ [g])) = some g := by
  unfold notesAfterPlacements
  rw [List.foldl_append]
  exact getPlacedGroup_mkPlacementNotes g _ hne hws hbr

/-- Witness for C6: two placements in order; the notes then contain two
tags and the derived tag is the second (most recent) group. -/
theorem C6_placement_tag_most_recent_witness :
    getPlacedGroup (notesAfterPlacements "메모" (["정자 1순"] ++ ["분당 2순"])) = some "분당 2순" :=
  C6_placement_tag_most_recent "메모" ["정자 1순"] "분당 2순" (by decide) (by decide) (by decide)

/-- C7 counterexample: a resync trigger received while a cycle is already
SYNCING is not dropped — from the initial state, a first trigger leaves the
state SYNCING, and a second trigger in that state brings two cycles in
flight. -/
theorem C7_sync_trigger_not_coalesced_counterexample :
    (syncBegin baseState false).isSyncing = true
    ∧ (syncBegin (syncBegin baseState false) false).syncsInFlight = 2 := by decide

/-- C7 (amended): `handleSyncFromSheet` contains no guard on `isSyncing`, so
a trigger received while a cycle is SYNCING is neither dropped nor queued —
it immediately starts one more concurrent cycle (the in-flight count rises
by one and the state stays SYNCING). -/
theorem C7_sync_trigger_starts_concurrent_cycle (s : AppState) (silent : Bool)
    (_h : s.isSyncing = true) :
    (syncBegin s silent).syncsInFlight = s.syncsInFlight + 1
    ∧ (syncBegin s silent).isSyncing = true
    ∧ (syncBegin s silent).result = s.result := by
  exact ⟨rfl, rfl, rfl⟩

/-- Witness for C7 at a state that is genuinely SYNCING. -/
theorem C7_sync_trigger_starts_concurrent_cycle_witness :
    (syncBegin (syncBegin baseState false) true).syncsInFlight
        = (syncBegin baseState false).syncsInFlight + 1
    ∧ (syncBegin (syncBegin baseState false) true).isSyncing = true
    ∧ (syncBegin (syncBegin baseState false) true).result = (syncBegin baseState false).result :=
  C7_sync_trigger_starts_concurrent_cycle (syncBegin baseState false) true (by decide)

/-- C8 counterexample: the append client of src/index.tsx wraps the
15-second deadline's `AbortError` in exactly the same error as any other
transport failure — the two outcomes are indistinguishable, so no distinct
timeout error is raised on expiry. -/
theorem C8_timeout_not_distinct_counterexample :
    appendEntriesToSheet_idx "https://script.google.com/macros/s/abc/exec"
        (some { name := "AbortError", message := "signal is aborted without reason" })
      = appendEntriesToSheet_idx "https://script.google.com/macros/s/abc/exec"
        (some { name := "TypeError", message := "signal is aborted without reason" })
    ∧ sendToAppsScriptTimeoutMillis = none :=
  ⟨rfl, rfl⟩

/-- C8 (amended): the sheetService.ts append client arms a fixed 15-second
timeout and maps its expiry (`AbortError`) to a distinct timeout error,
while every other thrown error becomes a transport error — and the two are
different errors for all messages.  The index.tsx append client also arms a
15-second timeout but folds its expiry into the same generic error as any
other failure, and the part_001 append client has no timeout at all. -/
theorem C8_timeout_distinct_in_sheetService (url msg : String) (e : JsError)
    (hurl : startsWithHttp url = true) (hn : e.name ≠ "AbortError") :
    appendTimeoutMillis_svc = 15000
    ∧ appendEntriesToSheet_svc url (some { name := "AbortError", message := msg })
        = Except.error (AppendError.timeout
            "전송 시간이 초과되었습니다. 네트워크 상태나 Apps Script URL을 확인해주세요.")
    ∧ appendEntriesToSheet_svc url (some e)
        = Except.error (AppendError.transport
            ("시트 업데이트 중 오류가 발생했습니다: " ++ e.message))
    ∧ (∀ m1 m2 : String, AppendError.timeout m1 ≠ AppendError.transport m2)
    ∧ appendTimeoutMillis_idx = 15000
    ∧ appendEntriesToSheet_idx url
          (some { name := "AbortError", message := msg })
        = appendEntriesToSheet_idx url (some { name := "TypeError", message := msg })
    ∧ sendToAppsScriptTimeoutMillis = none := by
  have hnil : url ≠ "" := by
    intro h
    rw [h] at hurl
    exact absurd hurl (by decide)
  have hguard : ¬ (url = "" ∨ startsWithHttp url = false) := by
    rintro (h1 | h1)
    · exact hnil h1
    · rw [hurl] at h1
      cases h1
  refine ⟨rfl, ?_, ?_, ?_, rfl, ?_, rfl⟩
  · unfold appendEntriesToSheet_svc
    rw [if_neg hguard]
    simp
  · unfold appendEntriesToSheet_svc
    rw [if_neg hguard]
    simp [hn]
  · intro m1 m2 hc
    cases hc
  · unfold appendEntriesToSheet_idx
    rw [if_neg hnil]

/-- Witness for C8 at a concrete URL and error. -/
theorem C8_timeout_distinct_in_sheetService_witness :
    appendTimeoutMillis_svc = 15000
    ∧ appendEntriesToSheet_svc "https://script.google.com/macros/s/abc/exec"
        (some { name := "AbortError", message := "aborted" })
        = Except.error (AppendError.timeout
            "전송 시간이 초과되었습니다. 네트워크 상태나 Apps Script URL을 확인해주세요.")
    ∧ appendEntriesToSheet_svc "https://script.google.com/macros/s/abc/exec"
        (some { name := "TypeError", message := "failed to fetch" })
        = Except.error (AppendError.transport
            ("시트 업데이트 중 오류가 발생했습니다: " ++ ({ name := "TypeError", message := "failed to fetch" } : JsError).message))
    ∧ (∀ m1 m2 : String, AppendError.timeout m1 ≠ AppendError.transport m2)
    ∧ appendTimeoutMillis_idx = 15000
    ∧ appendEntriesToSheet_idx "https://script.google.com/macros/s/abc/exec"
          (some { name := "AbortError", message := "aborted" })
        = appendEntriesToSheet_idx "https://script.google.com/macros/s/abc/exec"
          (some { name := "TypeError", message := "aborted" })
    ∧ sendToAppsScriptTimeoutMillis = none :=
  C8_timeout_distinct_in_sheetService "https://script.google.com/macros/s/abc/exec"
    "aborted" { name := "TypeError", message := "failed to fetch" } (by decide) (by decide)

/-- C9 counterexample: the recent-activity buffer is not updated at call
submission — the entry is handed to the append client, yet when the call
fails the buffer still holds nothing afterwards. -/
theorem C9_buffer_not_updated_at_submission_counterexample :
    (handleAddEntry baseState c9Entry false "12:00:00" AppendOutcome.failure).2
      = some [{ c9Entry with timestamp := some "12:00:00" }]
    ∧ (handleAddEntry baseState c9Entry false "12:00:00" AppendOutcome.failure).1.recentLogs
      = [] := by decide

/-- C9 (amended): the new record is prepended to the recent-activity buffer
only after the append call completes successfully — a failed call leaves
the buffer unchanged — and after every successful append the buffer holds
the stamped record first followed by at most 9 previous entries, hence at
most 10 entries in most-recent-first order. -/
theorem C9_buffer_bounded_most_recent_first (s : AppState) (e : FormEntry)
    (isC : Bool) (now : String)
    (hname : jsTrim e.name ≠ "") (hauthor : jsTrim e.author ≠ "")
    (hsave : s.isSaving = false) :
    (handleAddEntry s e isC now AppendOutcome.success).1.recentLogs
        = { e with timestamp := some now } :: s.recentLogs.take 9
    ∧ (handleAddEntry s e isC now AppendOutcome.success).1.recentLogs.length ≤ 10
    ∧ (handleAddEntry s e isC now AppendOutcome.failure).1.recentLogs = s.recentLogs := by
  have hlogs : (handleAddEntry s e isC now AppendOutcome.success).1.recentLogs
      = { e with timestamp := some now } :: s.recentLogs.take 9 := by
    unfold handleAddEntry
    rw [if_neg hname, if_neg hauthor, if_neg (by simp [hsave])]
    cases isC <;> rfl
  refine ⟨hlogs, ?_, ?_⟩
  · rw [hlogs]
    have h9 : (s.recentLogs.take 9).length ≤ 9 := List.length_take_le 9 s.recentLogs
    simp only [List.length_cons]
    omega
  · unfold handleAddEntry
    rw [if_neg hname, if_neg hauthor, if_neg (by simp [hsave])]

/-- Witness for C9 at a concrete valid entry and the initial state. -/
theorem C9_buffer_bounded_most_recent_first_witness :
    (handleAddEntry baseState c9Entry false "12:01:00" AppendOutcome.success).1.recentLogs
        = { c9Entry with timestamp := some "12:01:00" } :: baseState.recentLogs.take 9
    ∧ (handleAddEntry baseState c9Entry false "12:01:00" AppendOutcome.success).1.recentLogs.length ≤ 10
    ∧ (handleAddEntry baseState c9Entry false "12:01:00" AppendOutcome.failure).1.recentLogs
        = baseState.recentLogs :=
  C9_buffer_bounded_most_recent_first baseState c9Entry false "12:01:00"
    (by decide) (by decide) (by decide)

/-- C10: submitting an edit or placement record leaves the operator's
in-progress draft (`currentEntry`) unchanged — the reset happens only when
the submitted entry is the current form entry itself (reference identity),
and both the placement and the edit call sites pass freshly constructed
entries, never the form entry. -/
theorem C10_placement_edit_preserve_draft (s : AppState) (entry : FormEntry)
    (today now : String) (o : AppendOutcome) :
    (handleConfirmPlacement s today now o).1.currentEntry = s.currentEntry
    ∧ (handleEditSave s today now o).1.currentEntry = s.currentEntry
    ∧ (handleAddEntry s entry false now o).1.currentEntry = s.currentEntry := by
  refine ⟨?_, ?_, handleAddEntry_not_current_preserves_draft s entry now o⟩
  · cases hp : s.placingMember with
    | none => simp [handleConfirmPlacement, hp]
    | some m =>
        simp only [handleConfirmPlacement, hp]
        by_cases hg : jsTrim s.smallGroupName = ""
        · rw [if_pos hg]
        · rw [if_neg hg]
          exact handleAddEntry_not_current_preserves_draft s _ now o
  · cases he : s.editingMember with
    | none => simp [handleEditSave, he]
    | some m =>
        simp only [handleEditSave, he]
        exact handleAddEntry_not_current_preserves_draft s _ now o
